import Mathlib

/-!
Verification development for the `clean-pattern` repository's user slice.

The embedding translates the executable parts of the repository:
* `RegisterUser.exec` (src/app/user/usecases/RegisterUser.ts),
* the HTTP handler `register` (src/user/http.ts, which publishes to the
  `signups` topic after `exec` returns),
* `UserRepoSQL` (src/adapters/user/UserRepo.sql.ts): `create` inserts a row,
  `findByEmail` selects by email, `disableUnverifiedOlderThan` runs
  `UPDATE users SET verified = FALSE
     WHERE verified = FALSE AND created_at < NOW() - ($1 || ' hours')::interval`
  and returns 0,
* the cron endpoint `cleanupUnverified` (src/user/jobs.ts), which calls
  `disableUnverifiedOlderThan(24)`.

The database is a list of rows; time is an integer number of hours; the
side-effecting port calls are recorded in an explicit effect trace.
-/

namespace CleanPattern

/-- A stored row of the `users` table
(`id TEXT PRIMARY KEY, email TEXT UNIQUE NOT NULL, name TEXT,
  verified BOOLEAN NOT NULL DEFAULT FALSE, created_at TIMESTAMPTZ`). -/
structure Row where
  id : String
  email : String
  name : Option String
  verified : Bool
  created_at : Int
deriving Repr, DecidableEq

/-- The user record shape used by the ports and by `RegisterOutput`:
`{ id: string; email: string; name?: string; verified: boolean }`. -/
structure User where
  id : String
  email : String
  name : Option String
  verified : Bool
deriving Repr, DecidableEq

/-- Projection of a stored row to the port-level record, as in
`findByEmail`'s `SELECT id, email, name, verified`. -/
def Row.toUser (r : Row) : User :=
  { id := r.id, email := r.email, name := r.name, verified := r.verified }

/-- `RegisterInput = { email: string; name?: string }`. -/
structure RegisterInput where
  email : String
  name : Option String
deriving Repr, DecidableEq

/-- The test of the regular expression `/^[^@]+@[^@]+\.[^@]+$/` from
`RegisterUser.exec`: the string splits at a unique `@` into a nonempty
local part and a domain that has a `.` at an interior position
(so the domain is `B ++ "." ++ C` with `B`, `C` nonempty and `@`-free). -/
def emailRegexTest (s : String) : Bool :=
  let cs := s.data
  let l := cs.takeWhile (· != '@')
  match cs.drop l.length with
  | '@' :: d =>
      !l.isEmpty && !d.contains '@' && (d.drop 1).dropLast.contains '.'
  | _ => false

/-- JS `String.prototype.trim` on the character list: strip leading and
trailing whitespace. -/
def trimChars (cs : List Char) : List Char :=
  ((cs.dropWhile Char.isWhitespace).reverse.dropWhile
    Char.isWhitespace).reverse

/-- `input.email.trim().toLowerCase()` from `RegisterUser.exec`
(ASCII lowercasing; the inputs in scope are ASCII). -/
def normalizeEmail (s : String) : String :=
  String.mk ((trimChars s.data).map Char.toLower)

/-- `UserRepoSQL.findByEmail`: `SELECT id, email, name, verified FROM users
WHERE email = ${email}` via `queryRow` (first matching row, or null). -/
def findByEmail (db : List Row) (email : String) : Option User :=
  (db.find? (fun r => r.email = email)).map Row.toUser

/-- `UserRepoSQL.create`: `INSERT INTO users (id, email, name, verified)
VALUES (...)`; `created_at` takes the default `NOW()`, here `now`. -/
def create (db : List Row) (u : User) (now : Int) : List Row :=
  db ++ [{ id := u.id, email := u.email, name := u.name,
           verified := u.verified, created_at := now }]

/-- One port call observable from `RegisterUser.exec` or the HTTP handler. -/
inductive Effect where
  | findByEmail (email : String)
  | newId
  | create (u : User)
  | sendWelcome (toAddr : String) (name : Option String)
  | publish (userID : String) (email : String)
deriving Repr, DecidableEq

/-- `RegisterUser.exec`: normalize the email, reject a malformed email with
`INVALID_EMAIL`, reject an already-present email with `EMAIL_TAKEN`,
otherwise create `{ id, email, name, verified: false }`, send the welcome
mail and return the record.  Returns the result, the updated store and the
trace of port calls, in order. -/
def exec (newId : String) (now : Int) (input : RegisterInput) (db : List Row) :
    Except String User × List Row × List Effect :=
  let email := normalizeEmail input.email
  if emailRegexTest email = false then
    (Except.error "INVALID_EMAIL", db, [])
  else
    match findByEmail db email with
    | some _ => (Except.error "EMAIL_TAKEN", db, [Effect.findByEmail email])
    | none =>
      let user : User := { id := newId, email := email, name := input.name,
                           verified := false }
      (Except.ok user, create db user now,
        [Effect.findByEmail email, Effect.newId, Effect.create user,
         Effect.sendWelcome email input.name])

/-- `HttpStatus.Created`, the status the handler attaches to the response. -/
def createdStatus : Nat := 201

/-- The HTTP POST `/users` handler `register`: run `exec`, then publish
`{ userID: user.id, email: user.email }` to the `signups` topic and return
`{ ...user, status: HttpStatus.Created }`.  An error from `exec`
propagates and nothing is published. -/
def register (newId : String) (now : Int) (input : RegisterInput)
    (db : List Row) :
    Except String (User × Nat) × List Row × List Effect :=
  match exec newId now input db with
  | (Except.ok user, db1, tr) =>
      (Except.ok (user, createdStatus), db1,
        tr ++ [Effect.publish user.id user.email])
  | (Except.error e, db1, tr) => (Except.error e, db1, tr)

/-- The row transformation of the UPDATE in `disableUnverifiedOlderThan`:
a row satisfying `verified = FALSE AND created_at < NOW() - hours` is
assigned `verified = FALSE`; any other row is untouched. -/
def sweepRow (now hours : Int) (r : Row) : Row :=
  if r.verified = false ∧ r.created_at < now - hours then
    { r with verified := false }
  else r

/-- `UserRepoSQL.disableUnverifiedOlderThan`: run the UPDATE over every row
and return 0 (`rawExec` returns void; the adapter `return 0`). -/
def disableUnverifiedOlderThan (now hours : Int) (db : List Row) :
    List Row × Nat :=
  (db.map (sweepRow now hours), 0)

/-- The cron endpoint `cleanupUnverified`: call
`disableUnverifiedOlderThan(24)` and discard the returned count. -/
def cleanupUnverified (now : Int) (db : List Row) : List Row :=
  (disableUnverifiedOlderThan now 24 db).1

/-- A step of the system in scope: a registration (`RegisterUser.exec` with
the id `newId()` returned and the clock reading `now`) or a daily sweep. -/
inductive Step where
  | reg (newId : String) (input : RegisterInput) (now : Int)
  | sweep (now : Int)
deriving Repr, DecidableEq

/-- Apply one step to the store. -/
def applyStep (db : List Row) : Step → List Row
  | Step.reg newId input now => (exec newId now input db).2.1
  | Step.sweep now => cleanupUnverified now db

/-- Run a sequence of steps from a store. -/
def runSteps (steps : List Step) (db : List Row) : List Row :=
  steps.foldl applyStep db

/-- The emails stored in the store are pairwise distinct. -/
def emailsUnique (db : List Row) : Prop :=
  (db.map Row.email).Nodup

instance (db : List Row) : Decidable (emailsUnique db) := by
  unfold emailsUnique; infer_instance

/-! ### Helper lemmas -/

/-- The UPDATE's row transformation is the identity: it assigns
`verified := false` only to rows whose `verified` is already `false`. -/
theorem sweepRow_eq_id (now hours : Int) (r : Row) :
    sweepRow now hours r = r := by
  unfold sweepRow
  split
  · rename_i h
    cases r
    simp_all
  · rfl

/-- `disableUnverifiedOlderThan` leaves the stored rows unchanged. -/
theorem disable_fst (now hours : Int) (db : List Row) :
    (disableUnverifiedOlderThan now hours db).1 = db := by
  show db.map (sweepRow now hours) = db
  induction db with
  | nil => rfl
  | cons r rest ih => rw [List.map_cons, sweepRow_eq_id, ih]

/-- `findByEmail` returns `none` exactly when no stored row has the email. -/
theorem findByEmail_eq_none_iff (db : List Row) (e : String) :
    findByEmail db e = none ↔ ∀ r ∈ db, r.email ≠ e := by
  simp [findByEmail, List.find?_eq_none]

/-- The store after `exec`: unchanged on either error, or the old store
with the new record (carrying the normalized email and `verified = false`)
appended, in which case the normalized email was free. -/
theorem exec_state (newId : String) (now : Int) (input : RegisterInput)
    (db : List Row) :
    (exec newId now input db).2.1 = db ∨
      (findByEmail db (normalizeEmail input.email) = none ∧
       (exec newId now input db).2.1 =
         db ++ [{ id := newId, email := normalizeEmail input.email,
                  name := input.name, verified := false,
                  created_at := now }]) := by
  cases h : emailRegexTest (normalizeEmail input.email) with
  | false => left; simp [exec, h]
  | true =>
    cases hf : findByEmail db (normalizeEmail input.email) with
    | none => right; exact ⟨rfl, by simp [exec, h, hf, create]⟩
    | some u => left; simp [exec, h, hf]

/-- The record `exec` builds on success:
`{ id, email, name: input.name, verified: false }` with the generated id
and the normalized email. -/
def newUser (newId : String) (input : RegisterInput) : User :=
  { id := newId, email := normalizeEmail input.email, name := input.name,
    verified := false }

/-- `exec` on a malformed email: `INVALID_EMAIL`, no state change,
no port call. -/
theorem exec_eq_invalid (newId : String) (now : Int)
    (input : RegisterInput) (db : List Row)
    (h : emailRegexTest (normalizeEmail input.email) = false) :
    exec newId now input db = (Except.error "INVALID_EMAIL", db, []) := by
  simp [exec, h]

/-- `exec` on a well-formed but taken email: `EMAIL_TAKEN`, no state
change, only the uniqueness lookup ran. -/
theorem exec_eq_taken (newId : String) (now : Int)
    (input : RegisterInput) (db : List Row)
    (h : emailRegexTest (normalizeEmail input.email) = true)
    (hf : (findByEmail db (normalizeEmail input.email)).isSome = true) :
    exec newId now input db =
      (Except.error "EMAIL_TAKEN", db,
       [Effect.findByEmail (normalizeEmail input.email)]) := by
  rcases Option.isSome_iff_exists.mp hf with ⟨u, hu⟩
  simp [exec, h, hu]

/-- `exec` on a well-formed, free email: the new record is returned and
appended, after the lookup, id generation, insert and welcome mail. -/
theorem exec_eq_ok (newId : String) (now : Int)
    (input : RegisterInput) (db : List Row)
    (h : emailRegexTest (normalizeEmail input.email) = true)
    (hf : findByEmail db (normalizeEmail input.email) = none) :
    exec newId now input db =
      (Except.ok (newUser newId input),
       create db (newUser newId input) now,
       [Effect.findByEmail (normalizeEmail input.email), Effect.newId,
        Effect.create (newUser newId input),
        Effect.sendWelcome (normalizeEmail input.email) input.name]) := by
  simp [exec, h, hf, newUser]

/-- The handler on a malformed email: the error propagates, nothing
else happens. -/
theorem register_eq_invalid (newId : String) (now : Int)
    (input : RegisterInput) (db : List Row)
    (h : emailRegexTest (normalizeEmail input.email) = false) :
    register newId now input db = (Except.error "INVALID_EMAIL", db, []) := by
  unfold register
  rw [exec_eq_invalid newId now input db h]

/-- The handler on a taken email: the error propagates, only the
uniqueness lookup ran, nothing is published. -/
theorem register_eq_taken (newId : String) (now : Int)
    (input : RegisterInput) (db : List Row)
    (h : emailRegexTest (normalizeEmail input.email) = true)
    (hf : (findByEmail db (normalizeEmail input.email)).isSome = true) :
    register newId now input db =
      (Except.error "EMAIL_TAKEN", db,
       [Effect.findByEmail (normalizeEmail input.email)]) := by
  unfold register
  rw [exec_eq_taken newId now input db h hf]

/-- The handler on a fresh well-formed email: the record is persisted and
returned with status 201, and the signup event is published last. -/
theorem register_eq_ok (newId : String) (now : Int)
    (input : RegisterInput) (db : List Row)
    (h : emailRegexTest (normalizeEmail input.email) = true)
    (hf : findByEmail db (normalizeEmail input.email) = none) :
    register newId now input db =
      (Except.ok (newUser newId input, createdStatus),
       create db (newUser newId input) now,
       [Effect.findByEmail (normalizeEmail input.email), Effect.newId,
        Effect.create (newUser newId input),
        Effect.sendWelcome (normalizeEmail input.email) input.name,
        Effect.publish (newUser newId input).id
          (newUser newId input).email]) := by
  unfold register
  rw [exec_eq_ok newId now input db h hf]
  rfl

/-- Each step preserves pairwise-distinct emails. -/
theorem emailsUnique_applyStep (db : List Row) (s : Step)
    (h : emailsUnique db) : emailsUnique (applyStep db s) := by
  cases s with
  | sweep now =>
      simpa [applyStep, cleanupUnverified, disable_fst] using h
  | reg nid inp now =>
      rcases exec_state nid now inp db with h1 | ⟨hfree, h1⟩
      · simpa [applyStep, h1] using h
      · show emailsUnique (exec nid now inp db).2.1
        rw [h1]
        unfold emailsUnique at h ⊢
        rw [List.map_append]
        refine List.Nodup.append h (List.nodup_singleton _) ?_
        intro e he he'
        simp only [List.map_cons, List.map_nil, List.mem_singleton] at he'
        rcases List.mem_map.mp he with ⟨r, hr, hre⟩
        exact (findByEmail_eq_none_iff db _).mp hfree r hr (hre.trans he')

/-- Each step preserves "every stored row is unverified". -/
theorem allUnverified_applyStep (db : List Row) (s : Step)
    (h : ∀ r ∈ db, r.verified = false) :
    ∀ r ∈ applyStep db s, r.verified = false := by
  cases s with
  | sweep now =>
      intro r hr
      rw [show applyStep db (Step.sweep now) = db by
            simp [applyStep, cleanupUnverified, disable_fst]] at hr
      exact h r hr
  | reg nid inp now =>
      intro r hr
      rcases exec_state nid now inp db with h1 | ⟨_, h1⟩
      · rw [show applyStep db (Step.reg nid inp now) = (exec nid now inp db).2.1
              from rfl, h1] at hr
        exact h r hr
      · rw [show applyStep db (Step.reg nid inp now) = (exec nid now inp db).2.1
              from rfl, h1] at hr
        rcases List.mem_append.mp hr with hr' | hr'
        · exact h r hr'
        · simp only [List.mem_singleton] at hr'
          rw [hr']

/-- Running steps preserves pairwise-distinct emails. -/
theorem emailsUnique_runSteps (steps : List Step) (db : List Row)
    (h : emailsUnique db) : emailsUnique (runSteps steps db) := by
  induction steps generalizing db with
  | nil => exact h
  | cons s rest ih => exact ih _ (emailsUnique_applyStep db s h)

/-- Running steps preserves "every stored row is unverified". -/
theorem allUnverified_runSteps (steps : List Step) (db : List Row)
    (h : ∀ r ∈ db, r.verified = false) :
    ∀ r ∈ runSteps steps db, r.verified = false := by
  induction steps generalizing db with
  | nil => exact h
  | cons s rest ih => exact ih _ (allUnverified_applyStep db s h)

/-! ### Claim theorems -/

/-- C1: for every input whose email, after trimming and lowercasing,
matches `/^[^@]+@[^@]+\.[^@]+$/`, and for which `findByEmail` on the
normalized email returns null, `RegisterUser.exec` succeeds and returns
`{ id: idGen.newId(), email: the normalized email, name: input.name,
verified: false }`. -/
theorem exec_registers_fresh_email (newId : String) (now : Int)
    (input : RegisterInput) (db : List Row)
    (hfmt : emailRegexTest (normalizeEmail input.email) = true)
    (hfree : findByEmail db (normalizeEmail input.email) = none) :
    (exec newId now input db).1 =
      Except.ok { id := newId, email := normalizeEmail input.email,
                  name := input.name, verified := false } := by
  simp [exec, hfmt, hfree]

/-- Witness for C1 at the repository's own test vector
(`{ email: "A@B.com", name: "Alice" }` against an empty store,
`newId() = "id-1"`). -/
theorem exec_registers_fresh_email_witness :
    emailRegexTest (normalizeEmail "A@B.com") = true ∧
    findByEmail [] (normalizeEmail "A@B.com") = none ∧
    (exec "id-1" 0 { email := "A@B.com", name := some "Alice" } []).1 =
      Except.ok { id := "id-1", email := "a@b.com", name := some "Alice",
                  verified := false } :=
  ⟨by decide, rfl,
    exec_registers_fresh_email "id-1" 0
      { email := "A@B.com", name := some "Alice" } [] (by decide) rfl⟩

/-- C2: `exec` recognizes exactly two error conditions: it throws
`INVALID_EMAIL` iff the normalized email fails the format check, throws
`EMAIL_TAKEN` iff the format check passes but `findByEmail` returns an
existing record, and in all other cases it does not throw. -/
theorem exec_error_conditions (newId : String) (now : Int)
    (input : RegisterInput) (db : List Row) :
    ((exec newId now input db).1 = Except.error "INVALID_EMAIL" ↔
        emailRegexTest (normalizeEmail input.email) = false) ∧
    ((exec newId now input db).1 = Except.error "EMAIL_TAKEN" ↔
        emailRegexTest (normalizeEmail input.email) = true ∧
        (findByEmail db (normalizeEmail input.email)).isSome = true) ∧
    ((∃ u, (exec newId now input db).1 = Except.ok u) ↔
        emailRegexTest (normalizeEmail input.email) = true ∧
        findByEmail db (normalizeEmail input.email) = none) := by
  cases h : emailRegexTest (normalizeEmail input.email) with
  | false => refine ⟨?_, ?_, ?_⟩ <;> simp [exec, h]
  | true =>
    cases hf : findByEmail db (normalizeEmail input.email) with
    | none => refine ⟨?_, ?_, ?_⟩ <;> simp [exec, h, hf]
    | some u => refine ⟨?_, ?_, ?_⟩ <;> simp [exec, h, hf]

/-- C3: the argument `exec` passes to `findByEmail` is the trimmed and
lowercased email, the record it passes to `repo.create` carries that
normalized email, and so does the record it returns — never the raw
input email. -/
theorem exec_uses_normalized_email (newId : String) (now : Int)
    (input : RegisterInput) (db : List Row) :
    (∀ e ∈ (exec newId now input db).2.2,
      (∀ s, e = Effect.findByEmail s → s = normalizeEmail input.email) ∧
      (∀ u, e = Effect.create u →
        u.email = normalizeEmail input.email)) ∧
    (∀ u, (exec newId now input db).1 = Except.ok u →
      u.email = normalizeEmail input.email) := by
  cases h : emailRegexTest (normalizeEmail input.email) with
  | false =>
    rw [exec_eq_invalid newId now input db h]
    constructor
    · intro e he
      exact absurd he (List.not_mem_nil e)
    · intro u hu
      exact absurd hu (by simp)
  | true =>
    cases hf : findByEmail db (normalizeEmail input.email) with
    | some v =>
      rw [exec_eq_taken newId now input db h (by rw [hf]; rfl)]
      constructor
      · intro e he
        rw [List.mem_singleton] at he
        subst he
        constructor
        · intro s hs
          exact (Effect.findByEmail.injEq _ _).mp hs.symm
        · intro u hu
          exact absurd hu (by simp)
      · intro u hu
        exact absurd hu (by simp)
    | none =>
      rw [exec_eq_ok newId now input db h hf]
      constructor
      · intro e he
        simp only [List.mem_cons, List.not_mem_nil, or_false] at he
        rcases he with he | he | he | he <;> subst he <;>
          refine ⟨?_, ?_⟩ <;> intro x hx <;>
            first
              | (exact ((Effect.findByEmail.injEq _ _).mp hx).symm)
              | (rw [← (Effect.create.injEq _ _).mp hx]; rfl)
              | (exact Effect.noConfusion hx)
      · intro u hu
        rw [← (Except.ok.injEq _ _).mp hu]
        rfl

/-- C4: on a successful registration the HTTP POST handler performs, in
this order: the email format validation (so it passed), the `findByEmail`
uniqueness lookup, `newId`, `create`, `sendWelcome`, and finally a publish
of the new user's id/email pair to the signups topic. -/
theorem register_success_step_order (newId : String) (now : Int)
    (input : RegisterInput) (db : List Row) (u : User) (st : Nat)
    (hok : (register newId now input db).1 = Except.ok (u, st)) :
    emailRegexTest (normalizeEmail input.email) = true ∧
    (register newId now input db).2.2 =
      [Effect.findByEmail (normalizeEmail input.email), Effect.newId,
       Effect.create u,
       Effect.sendWelcome (normalizeEmail input.email) input.name,
       Effect.publish u.id u.email] := by
  cases h : emailRegexTest (normalizeEmail input.email) with
  | false =>
    rw [register_eq_invalid newId now input db h] at hok
    exact absurd hok (by simp)
  | true =>
    cases hf : findByEmail db (normalizeEmail input.email) with
    | some v =>
      rw [register_eq_taken newId now input db h (by rw [hf]; rfl)] at hok
      exact absurd hok (by simp)
    | none =>
      have hr := register_eq_ok newId now input db h hf
      rw [hr] at hok
      have hu : newUser newId input = u :=
        ((Prod.mk.injEq _ _ _ _).mp ((Except.ok.injEq _ _).mp hok)).1
      refine ⟨rfl, ?_⟩
      rw [hr, ← hu]

/-- Witness for C4 at the test vector: the handler's trace on
`{ email: "A@B.com", name: "Alice" }` against an empty store. -/
theorem register_success_step_order_witness :
    emailRegexTest (normalizeEmail "A@B.com") = true ∧
    (register "id-1" 0 { email := "A@B.com", name := some "Alice" }
        []).2.2 =
      [Effect.findByEmail (normalizeEmail "A@B.com"), Effect.newId,
       Effect.create { id := "id-1", email := "a@b.com",
                       name := some "Alice", verified := false },
       Effect.sendWelcome (normalizeEmail "A@B.com") (some "Alice"),
       Effect.publish "id-1" "a@b.com"] :=
  register_success_step_order "id-1" 0
    { email := "A@B.com", name := some "Alice" } []
    { id := "id-1", email := "a@b.com", name := some "Alice",
      verified := false } 201 rfl

/-- C5: email uniqueness is an invariant of every reachable store:
starting from an empty store, no sequence of registrations and sweeps
produces two stored rows with the same (normalized) email. -/
theorem runSteps_email_uniqueness (steps : List Step) :
    emailsUnique (runSteps steps []) :=
  emailsUnique_runSteps steps [] List.nodup_nil

/-- C6: the daily sweep (`cleanupUnverified`, threshold 24 hours) keeps
the row count; the row at each position keeps its id, email, name and
creation timestamp; a row that was unverified and older than the threshold
ends with `verified = false`; every other row is left entirely
unchanged. -/
theorem cleanupUnverified_frame (now : Int) (db : List Row) (i : Nat)
    (r : Row) (hr : db.get? i = some r) :
    (cleanupUnverified now db).length = db.length ∧
    ∃ r', (cleanupUnverified now db).get? i = some r' ∧
      r'.id = r.id ∧ r'.email = r.email ∧ r'.name = r.name ∧
      r'.created_at = r.created_at ∧
      (r.verified = false ∧ r.created_at < now - 24 →
        r'.verified = false) ∧
      (¬(r.verified = false ∧ r.created_at < now - 24) → r' = r) := by
  have hid : cleanupUnverified now db = db := disable_fst now 24 db
  refine ⟨by rw [hid], r, ?_, rfl, rfl, rfl, rfl, ?_, fun _ => rfl⟩
  · rw [hid]
    exact hr
  · intro hcond
    exact hcond.1

/-- Witness for C6: a store with one stale unverified row and one fresh
row, swept at time 100. -/
theorem cleanupUnverified_frame_witness :
    ([{ id := "id-1", email := "a@b.com", name := none, verified := false,
        created_at := 0 },
      { id := "id-2", email := "c@d.com", name := none, verified := false,
        created_at := 90 }] : List Row).get? 0 =
      some { id := "id-1", email := "a@b.com", name := none,
             verified := false, created_at := 0 } ∧
    ((cleanupUnverified 100
        [{ id := "id-1", email := "a@b.com", name := none,
           verified := false, created_at := 0 },
         { id := "id-2", email := "c@d.com", name := none,
           verified := false, created_at := 90 }]).length = 2 ∧
     ∃ r', (cleanupUnverified 100
        [{ id := "id-1", email := "a@b.com", name := none,
           verified := false, created_at := 0 },
         { id := "id-2", email := "c@d.com", name := none,
           verified := false, created_at := 90 }]).get? 0 = some r' ∧
      r'.id = "id-1" ∧ r'.email = "a@b.com" ∧ r'.name = none ∧
      r'.created_at = 0 ∧
      (false = false ∧ (0 : Int) < 100 - 24 → r'.verified = false) ∧
      (¬(false = false ∧ (0 : Int) < 100 - 24) →
        r' = { id := "id-1", email := "a@b.com", name := none,
               verified := false, created_at := 0 })) :=
  ⟨rfl, cleanupUnverified_frame 100
    [{ id := "id-1", email := "a@b.com", name := none, verified := false,
       created_at := 0 },
     { id := "id-2", email := "c@d.com", name := none, verified := false,
       created_at := 90 }] 0
    { id := "id-1", email := "a@b.com", name := none, verified := false,
      created_at := 0 } rfl⟩

/-- C7: every store reachable from the empty store by registrations and
daily sweeps holds only rows with `verified = false`: registration creates
records with `verified = false` and the sweep only ever writes
`verified = false`. -/
theorem runSteps_never_verified (steps : List Step) :
    ∀ r ∈ runSteps steps [], r.verified = false :=
  allUnverified_runSteps steps []
    (fun r hr => absurd hr (List.not_mem_nil r))

/-- Witness for C7: one registration followed by one sweep; the stored
row is unverified. -/
theorem runSteps_never_verified_witness :
    ({ id := "id-1", email := "a@b.com", name := none, verified := false,
       created_at := 0 } : Row) ∈
      runSteps [Step.reg "id-1" { email := "a@b.com", name := none } 0,
                Step.sweep 30] [] ∧
    ({ id := "id-1", email := "a@b.com", name := none, verified := false,
       created_at := 0 } : Row).verified = false :=
  ⟨by decide,
   runSteps_never_verified
     [Step.reg "id-1" { email := "a@b.com", name := none } 0,
      Step.sweep 30]
     { id := "id-1", email := "a@b.com", name := none, verified := false,
       created_at := 0 } (by decide)⟩

/-- C8: the sweep is the identity on stored data (its UPDATE assigns
`verified = FALSE` only to rows whose `verified` is already `FALSE`), so
running it twice yields the same store as running it once, and the same
store as not running it at all. -/
theorem disableUnverifiedOlderThan_identity (now hours : Int)
    (db : List Row) :
    (disableUnverifiedOlderThan now hours db).1 = db ∧
    (disableUnverifiedOlderThan now hours
        (disableUnverifiedOlderThan now hours db).1).1 =
      (disableUnverifiedOlderThan now hours db).1 :=
  ⟨disable_fst now hours db, disable_fst now hours _⟩

/-- C9: `disableUnverifiedOlderThan` returns 0 for every threshold and
every store, regardless of how many rows the UPDATE matches, even though
the `UserRepo` port declares a `Promise<number>`. -/
theorem disableUnverifiedOlderThan_returns_zero (now hours : Int)
    (db : List Row) :
    (disableUnverifiedOlderThan now hours db).2 = 0 := rfl

/-- C10: registration errors are atomic: whenever the handler's call
throws (`INVALID_EMAIL` or `EMAIL_TAKEN`), the store is unchanged and the
trace holds no `create`, no `sendWelcome` and no `publish` — publishing
happens only after `exec` returns. -/
theorem register_errors_atomic (newId : String) (now : Int)
    (input : RegisterInput) (db : List Row) (msg : String)
    (herr : (register newId now input db).1 = Except.error msg) :
    (register newId now input db).2.1 = db ∧
    ∀ e ∈ (register newId now input db).2.2,
      (∀ u, e ≠ Effect.create u) ∧
      (∀ a n, e ≠ Effect.sendWelcome a n) ∧
      (∀ uid em, e ≠ Effect.publish uid em) := by
  cases h : emailRegexTest (normalizeEmail input.email) with
  | false =>
    rw [register_eq_invalid newId now input db h]
    refine ⟨rfl, ?_⟩
    intro e he
    exact absurd he (List.not_mem_nil e)
  | true =>
    cases hf : findByEmail db (normalizeEmail input.email) with
    | some v =>
      rw [register_eq_taken newId now input db h (by rw [hf]; rfl)]
      refine ⟨rfl, ?_⟩
      intro e he
      rw [List.mem_singleton] at he
      subst he
      exact ⟨fun u hx => Effect.noConfusion hx,
             fun a n hx => Effect.noConfusion hx,
             fun uid em hx => Effect.noConfusion hx⟩
    | none =>
      rw [register_eq_ok newId now input db h hf] at herr
      exact absurd herr (by simp)

/-- Witness for C10 at a malformed email: the handler fails with
`INVALID_EMAIL`, the store stays empty and the trace is side-effect
free. -/
theorem register_errors_atomic_witness :
    (register "id-9" 0 { email := "not-an-email", name := none } []).1 =
      Except.error "INVALID_EMAIL" ∧
    ((register "id-9" 0 { email := "not-an-email", name := none }
        []).2.1 = [] ∧
     ∀ e ∈ (register "id-9" 0 { email := "not-an-email", name := none }
        []).2.2,
      (∀ u, e ≠ Effect.create u) ∧
      (∀ a n, e ≠ Effect.sendWelcome a n) ∧
      (∀ uid em, e ≠ Effect.publish uid em)) :=
  ⟨rfl, register_errors_atomic "id-9" 0
    { email := "not-an-email", name := none } [] "INVALID_EMAIL" rfl⟩

end CleanPattern
